import Mathlib

/-!
Verification development for the email-ingestion and application-state
reconciliation engine (src/email_monitor.py, src/tracker.py).

The Python code is shallowly embedded:

* Scores and confidences are exact multiples of 0.01, so they are
  modelled in exact hundredths as natural numbers: the source literal
  `0.6` is `60`, the threshold `0.5` is `50`, the cap `1.0` is `100`,
  and so on.  (The source computes with IEEE floats; the embedding
  idealizes the arithmetic as exact, which agrees with the source on
  every comparison the code performs.)
* Text is `String` with ASCII lower-casing (the inputs of interest are
  ASCII).
* The relational store is an explicit `DB` record; every mutating
  tracker call appends to or updates that record (per-write commits, as
  in the source).
* External calls (OAuth library, HTTP fetch, the LLM classification
  call) are parameters of the embedding, and an unrecovered session
  error in the poll cycle is modelled by an injection point that aborts
  the provider loop.
* Side effects of a poll cycle are additionally recorded in an explicit
  effect trace so that temporal claims about the ordering of reads and
  writes can be stated.
-/

-- ─────────────────────────────────────────────────────────
-- String helpers (Python `str.lower`, `in`, `split`, `replace`)
-- ─────────────────────────────────────────────────────────

/-- ASCII lower-casing of a single character (model of Python `str.lower`
on the ASCII inputs this system handles). -/
def lowerChar (c : Char) : Char :=
  if 'A' ≤ c ∧ c ≤ 'Z' then Char.ofNat (c.toNat + 32) else c

/-- Lower-case a string character-wise. -/
def lowerStr (s : String) : String := ⟨s.data.map lowerChar⟩

/-- `prefixOfB p h` is true when `p` is a prefix of `h`. -/
def prefixOfB : List Char → List Char → Bool
  | [], _ => true
  | _ :: _, [] => false
  | p :: ps, h :: hs => p == h && prefixOfB ps hs

/-- `containsSub hay pat` models Python `pat in hay` (substring test). -/
def containsSub (hay pat : List Char) : Bool :=
  match hay with
  | [] => pat.isEmpty
  | _ :: t => prefixOfB pat hay || containsSub t pat

/-- Substring test on strings: `containsStr hay pat` models `pat in hay`. -/
def containsStr (hay pat : String) : Bool := containsSub hay.data pat.data

/-- Model of `company.replace(" ", "").replace(",", "").replace(".", "")`. -/
def slugOf (s : String) : String :=
  ⟨s.data.filter (fun c => ¬(c = ' ' ∨ c = ',' ∨ c = '.'))⟩

/-- Model of `sender_domain.split(".")[0]`. -/
def firstDotField (s : String) : String := ⟨s.data.takeWhile (· ≠ '.')⟩

/-- The text between the first and second `@`, i.e. `s.split("@")[1]`
when `s` contains an `@`. -/
def secondAtField (s : String) : String :=
  ⟨((s.data.dropWhile (· ≠ '@')).drop 1).takeWhile (· ≠ '@')⟩

-- ─────────────────────────────────────────────────────────
-- Data model (src/tracker.py ORM rows, restricted to claim-relevant fields)
-- ─────────────────────────────────────────────────────────

/-- A tracked application (tracker.Application).  `company` and `role`
are optional to mirror the defensive `(app.company or "")` reads. -/
structure Application where
  id : Nat
  company : Option String
  role : Option String
  status : String
deriving DecidableEq, Repr

/-- A raw fetched message, as normalized by the provider adapters. -/
structure Email where
  email_id : String
  sender_email : String
  sender_name : String
  subject : String
  body_preview : String
deriving DecidableEq, Repr

-- ─────────────────────────────────────────────────────────
-- Matcher (auto_match_email_to_application)
-- ─────────────────────────────────────────────────────────

/-- The fixed consumer-mail skip-list of the Matcher. -/
def skip_domains : List String :=
  ["gmail.com", "yahoo.com", "hotmail.com", "outlook.com",
   "aol.com", "icloud.com", "protonmail.com"]

/-- Sender-domain extraction: `sender_email.split("@")[1].lower()`,
discarded when in the skip-list or when there is no `@`. -/
def senderDomain (sender_email : String) : String :=
  if sender_email.data.contains '@' then
    let d := lowerStr (secondAtField sender_email)
    if skip_domains.contains d then "" else d
  else ""

/-- The combined `f"{subject} {body}".lower()` text the Matcher scans. -/
def combinedText (e : Email) : String :=
  lowerStr (e.subject ++ " " ++ e.body_preview)

/-- Domain-match condition of scoring strategy 1: the sender-domain slug
and the company slug are substrings of each other. -/
def domainHit (sender_domain company : String) : Bool :=
  sender_domain ≠ "" &&
    (let company_slug := slugOf company
     let domain_slug := firstDotField sender_domain
     containsStr company_slug domain_slug || containsStr domain_slug company_slug)

/-- Per-application score accumulation, translated from the loop body of
`auto_match_email_to_application`.  Scores are in hundredths: the source
increments `0.6`, `0.3` and `0.1` are `60`, `30` and `10`. -/
def appScore (sender_domain combined : String) (app : Application) : Nat :=
  let company := lowerStr (app.company.getD "")
  let score1 := if domainHit sender_domain company then 60 else 0
  let score2 := if containsStr combined company then 30 else 0
  let role := lowerStr (app.role.getD "")
  let score3 := if role ≠ "" && containsStr combined role then 10 else 0
  score1 + score2 + score3

/-- An application participates in scoring only when its company name is
non-empty (`if not company: continue`). -/
def hasCompany (app : Application) : Bool :=
  lowerStr (app.company.getD "") ≠ ""

/-- The best-match fold of `auto_match_email_to_application`: applications
are scanned in order and the best is replaced only on a strictly greater
score (`if score > best_score`). -/
def matchFold (sender_domain combined : String) :
    List Application → Option Application × Nat → Option Application × Nat
  | [], acc => acc
  | app :: rest, (best, best_score) =>
    if hasCompany app then
      let score := appScore sender_domain combined app
      if best_score < score then
        matchFold sender_domain combined rest (some app, score)
      else
        matchFold sender_domain combined rest (best, best_score)
    else
      matchFold sender_domain combined rest (best, best_score)

/-- Model of `auto_match_email_to_application(email, applications)`; the
returned confidence is `min(best_score, 1.0)`, i.e. capped at `100`. -/
def auto_match_email_to_application (e : Email) (applications : List Application) :
    Option Application × Nat :=
  if e.sender_email = "" ∨ applications = [] then (none, 0)
  else
    let sd := senderDomain e.sender_email
    let r := matchFold sd (combinedText e) applications (none, 0)
    (r.1, min r.2 100)

example :
    (auto_match_email_to_application
      ⟨"m1", "hr@acme.com", "HR", "Unfortunately, we have decided...", ""⟩
      [⟨1, some "Acme Corp", some "Backend Engineer", "Applied"⟩]).2 = 60 := by
  decide

-- ─────────────────────────────────────────────────────────
-- Classifier Client (classify_email_stage)
-- ─────────────────────────────────────────────────────────

/-- The structured result parsed from the LLM response.  The parsed JSON
dictionary may lack keys, so each field is optional; the call sites read
them with `.get(key, default)`.  `confidence` is in hundredths. -/
structure Classification where
  stage : Option String
  confidence : Option Nat
  extracted_data : Option (List (String × String))
deriving DecidableEq, Repr

/-- Model of `classify_email_stage(subject, body, sender_domain)`.  The
external `call_claude` + `parse_json_response` interaction is a
parameter `llm`: `Except.error` covers every way the external call can
fail (timeout, malformed response, service error), all of which the
source catches in one `except` around the whole call. -/
def classify_email_stage (subject body sender_domain : String)
    (llm : Except String Classification) : Classification :=
  match subject, body, sender_domain, llm with
  | _, _, _, Except.ok c => c
  | _, _, _, Except.error _ =>
    { stage := some "other", confidence := some 0, extracted_data := some [] }

-- ─────────────────────────────────────────────────────────
-- Follow-up scheduling (schedule_followup_from_email)
-- ─────────────────────────────────────────────────────────

/-- A follow-up row (tracker.FollowUp), restricted to the fields the
email monitor writes.  Dates are day numbers; `scheduled_date` is
`today + offset`. -/
structure FollowUp where
  application_id : Nat
  action_type : String
  scheduled_date : Int
  notes : String
deriving DecidableEq, Repr

/-- Model of `schedule_followup_from_email(stage, application_id)`.  The
job passes `classification.get("stage")`, which may be absent, so the
stage argument is optional; a missing stage matches no branch, exactly
as `None == "interview_invite"` is false in the source. -/
def schedule_followup_from_email (stage : Option String) (application_id : Nat)
    (today : Int) : Option FollowUp :=
  if stage = some "interview_invite" then
    some ⟨application_id, "Thank You", today + 1,
          "Auto-created: Send thank-you after interview"⟩
  else if stage = some "rejection" then
    some ⟨application_id, "Email Follow-up", today + 1,
          "Auto-created: Send gracious response to rejection"⟩
  else if stage = some "offer" then
    some ⟨application_id, "Email Follow-up", today + 2,
          "Auto-created: Respond to offer / begin negotiation"⟩
  else if stage = some "screening" then
    some ⟨application_id, "Email Follow-up", today + 5,
          "Auto-created: Follow up after screening if no response"⟩
  else none

/-- The fixed stage→status dictionary of the monitoring job
(`status_map.get(stage)`; a missing stage looks up to nothing). -/
def statusMap (stage : Option String) : Option String :=
  match stage with
  | some "screening" => some "Screening"
  | some "interview_invite" => some "Interview"
  | some "interview_schedule" => some "Interview"
  | some "rejection" => some "Rejected"
  | some "offer" => some "Offer"
  | _ => none

-- ─────────────────────────────────────────────────────────
-- Tracking store (src/tracker.py rows and CRUD used by the job)
-- ─────────────────────────────────────────────────────────

/-- An email tracking row (tracker.EmailTracking), restricted to the
fields the monitoring job writes.  Note there is no provider column:
the dedup key of the store is `email_id` alone.  `received_date` is the
poll-time clock value. -/
structure MessageRecord where
  application_id : Option Nat
  email_id : String
  sender_email : String
  sender_name : String
  subject : String
  body_preview : String
  received_date : Int
  detected_stage : String
  confidence_score : Nat
  auto_matched : Bool
  parsed_data : Option (List (String × String))
  processed : Bool
  user_confirmed : Option Bool
deriving DecidableEq, Repr

/-- An OAuth credential row (tracker.OAuthToken).  `token_expiry` is a
clock value; `none` models a NULL expiry. -/
structure TokenRecord where
  id : Nat
  provider : String
  access_token_encrypted : String
  refresh_token_encrypted : String
  token_expiry : Option Int
deriving DecidableEq, Repr

/-- The tracking store.  Lists play the role of tables; every mutating
helper below commits immediately, as the source helpers do. -/
structure DB where
  applications : List Application
  email_tracking : List MessageRecord
  follow_ups : List FollowUp
  oauth_tokens : List TokenRecord
  settings : List (String × String)
deriving DecidableEq, Repr

/-- Model of `tracker.get_setting(db, key, default)`. -/
def get_setting (db : DB) (key : String) (default : Option String) : Option String :=
  match db.settings.find? (fun kv => kv.1 == key) with
  | some kv => some kv.2
  | none => default

/-- Model of `tracker.set_setting(db, key, value)` (update or insert). -/
def set_setting (db : DB) (key value : String) : DB :=
  if db.settings.any (fun kv => kv.1 == key) then
    { db with settings := db.settings.map (fun kv => if kv.1 == key then (key, value) else kv) }
  else
    { db with settings := db.settings ++ [(key, value)] }

/-- Model of `tracker.create_email_tracking` (insert and commit). -/
def create_email_tracking (db : DB) (r : MessageRecord) : DB :=
  { db with email_tracking := db.email_tracking ++ [r] }

/-- Model of `tracker.create_follow_up` (insert and commit). -/
def create_follow_up (db : DB) (fu : FollowUp) : DB :=
  { db with follow_ups := db.follow_ups ++ [fu] }

/-- Model of `tracker.update_application(db, app_id, status=...)` as the
monitoring job calls it: the status of the row with that id is replaced.
(The source also bumps `last_updated`, a field not modelled here.) -/
def update_application (db : DB) (app_id : Nat) (status : String) : DB :=
  { db with applications :=
      db.applications.map (fun a => if a.id == app_id then { a with status := status } else a) }

/-- Model of `tracker.get_unconfirmed_matches`: the review queue of
auto-matched records with a NULL `user_confirmed`.  (The source orders
the result by received date, which is not relevant to the claims and is
not modelled.) -/
def get_unconfirmed_matches (db : DB) : List MessageRecord :=
  db.email_tracking.filter (fun r => r.auto_matched && r.user_confirmed == none)

/-- The duplicate check at the head of the per-message loop:
`db.query(EmailTracking).filter_by(email_id=...).exists()`. -/
def alreadyTracked (db : DB) (e : Email) : Bool :=
  db.email_tracking.any (fun r => r.email_id == e.email_id)

-- ─────────────────────────────────────────────────────────
-- Effect traces
-- ─────────────────────────────────────────────────────────

/-- One observable side effect of a poll cycle: a settings read or
write, a store insert or update, a token refresh or message fetch call,
or the terminal rollback of an unrecovered error. -/
inductive Effect where
  | readSetting (key : String)
  | writeSetting (key value : String)
  | insertTracking (r : MessageRecord)
  | insertFollowUp (fu : FollowUp)
  | updateApplication (app_id : Nat) (status : String)
  | refreshCall (provider : String)
  | commitTokens (provider : String)
  | fetchCall (provider access_token : String)
  | rollback
deriving DecidableEq, Repr

/-- Per-cycle counters (`stats` in `email_monitoring_job`). -/
structure Stats where
  processed : Nat
  matched : Nat
  followups_created : Nat
  errors : Nat
deriving DecidableEq, Repr

/-- The accumulator threaded through the cycle: store, effect trace,
counters. -/
abbrev CycleState := DB × List Effect × Stats

-- ─────────────────────────────────────────────────────────
-- Per-message reconciliation (the inner loop of email_monitoring_job)
-- ─────────────────────────────────────────────────────────

/-- The tracking row built by the `create_email_tracking(...)` call in
the monitoring job, for a message with match result `matched_app` and
match confidence `confidence` (hundredths). -/
def trackingRecord (now : Int) (cls : Classification)
    (matched_app : Option Application) (confidence : Nat) (e : Email) : MessageRecord :=
  { application_id :=
      match matched_app with
      | some a => if 50 ≤ confidence then some a.id else none
      | none => none
    email_id := e.email_id
    sender_email := e.sender_email
    sender_name := e.sender_name
    subject := e.subject
    body_preview := e.body_preview
    received_date := now
    detected_stage := cls.stage.getD "other"
    confidence_score := cls.confidence.getD 0
    auto_matched := decide (50 ≤ confidence)
    parsed_data := cls.extracted_data
    processed := true
    user_confirmed := if confidence < 70 then none else some true }

/-- The high-confidence branch of the loop (`if matched_app and
confidence >= 0.7`): conditional status update gated by the
`email_auto_update` setting, then conditional follow-up creation. -/
def reconcileHighConfidence (today : Int) (cls : Classification) (a : Application)
    (acc : CycleState) : CycleState :=
  let (db, tr, st) := acc
  let stage := cls.stage
  let step1 : DB × List Effect :=
    match statusMap stage with
    | some new_status =>
      let tr' := tr ++ [Effect.readSetting "email_auto_update"]
      if get_setting db "email_auto_update" (some "true") == some "true" then
        (update_application db a.id new_status,
         tr' ++ [Effect.updateApplication a.id new_status])
      else (db, tr')
    | none => (db, tr)
  let st1 := { st with matched := st.matched + 1 }
  match schedule_followup_from_email stage a.id today with
  | some fu =>
    (create_follow_up step1.1 fu, step1.2 ++ [Effect.insertFollowUp fu],
     { st1 with followups_created := st1.followups_created + 1 })
  | none => (step1.1, step1.2, st1)

/-- One iteration of the per-message loop of `email_monitoring_job`:
dedup check, classification, matching, record creation, then the
high-confidence branch.  `cf` is the classification oracle (the
deterministic outcome of the external LLM call for each message). -/
def process_email (cf : Email → Classification) (now today : Int)
    (all_applications : List Application) (acc : CycleState) (e : Email) : CycleState :=
  let (db, tr, st) := acc
  if alreadyTracked db e then acc
  else
    let cls := cf e
    let m := auto_match_email_to_application e all_applications
    let record := trackingRecord now cls m.1 m.2 e
    let db1 := create_email_tracking db record
    let tr1 := tr ++ [Effect.insertTracking record]
    let st1 := { st with processed := st.processed + 1 }
    match m.1 with
    | some a =>
      if 70 ≤ m.2 then reconcileHighConfidence today cls a (db1, tr1, st1)
      else (db1, tr1, st1)
    | none => (db1, tr1, st1)

-- ─────────────────────────────────────────────────────────
-- Provider adapters (GmailProvider / OutlookProvider)
-- ─────────────────────────────────────────────────────────

/-- The Gmail adapter's configuration state: the two client-credential
environment variables read in `__init__`, and whether the optional
client library imported (`HAS_GMAIL`). -/
structure GmailProvider where
  client_id : String
  client_secret : String
  has_lib : Bool
deriving DecidableEq, Repr

/-- `GmailProvider.is_configured`: truthiness of
`client_id and client_secret and HAS_GMAIL`. -/
def GmailProvider.is_configured (p : GmailProvider) : Bool :=
  p.client_id ≠ "" && p.client_secret ≠ "" && p.has_lib

/-- Model of `GmailProvider.get_auth_url(redirect_uri)`.  The external
OAuth flow construction is the parameter `flow` (it is only consulted in
the configured case).  An unconfigured provider returns the empty
string. -/
def GmailProvider.get_auth_url (p : GmailProvider) (redirect_uri : String)
    (flow : String → String) : String :=
  if ¬p.is_configured then "" else flow redirect_uri

/-- The Outlook adapter's configuration state (client credentials and
`HAS_OUTLOOK`). -/
structure OutlookProvider where
  client_id : String
  client_secret : String
  has_lib : Bool
deriving DecidableEq, Repr

/-- `OutlookProvider.is_configured`: truthiness of
`client_id and client_secret and HAS_OUTLOOK`. -/
def OutlookProvider.is_configured (p : OutlookProvider) : Bool :=
  p.client_id ≠ "" && p.client_secret ≠ "" && p.has_lib

/-- Model of `OutlookProvider.get_auth_url(redirect_uri)`; as for Gmail,
an unconfigured provider returns the empty string. -/
def OutlookProvider.get_auth_url (p : OutlookProvider) (redirect_uri : String)
    (flow : String → String) : String :=
  if ¬p.is_configured then "" else flow redirect_uri

-- ─────────────────────────────────────────────────────────
-- The poll cycle (email_monitoring_job)
-- ─────────────────────────────────────────────────────────

/-- The dictionary returned by a successful `refresh_access_token` call:
each key may be absent (`refreshed.get(...)` at the call site). -/
structure RefreshResult where
  access_token : Option String
  refresh_token : Option String
  expiry : Option Int
deriving DecidableEq, Repr

/-- The external world's responses for one provider during a cycle:
`none` in either field models the corresponding call raising (the job
catches it, counts an error and skips the provider). -/
structure ProviderBehavior where
  refreshResult : Option RefreshResult
  fetchResult : Option (List Email)
deriving Repr

/-- The environment of one run of `email_monitoring_job`: adapter
configuration, external-call behavior, the classification oracle, the
clock, the credential vault transforms, and the unrecovered-error
injection point (`fatal = some k` aborts the cycle after `k` provider
slices, landing in the outer `except` that rolls back and re-raises). -/
structure JobEnv where
  gmail : GmailProvider
  outlook : OutlookProvider
  gmailBeh : ProviderBehavior
  outlookBeh : ProviderBehavior
  cf : Email → Classification
  now : Int
  today : Int
  enc : String → String
  dec : String → String
  fatal : Option Nat

/-- Adapter lookup by the credential row's provider name
(`GmailProvider()` for "gmail", `OutlookProvider()` for "outlook",
nothing otherwise). -/
def providerFor (env : JobEnv) (name : String) : Option (Bool × ProviderBehavior) :=
  if name == "gmail" then some (env.gmail.is_configured, env.gmailBeh)
  else if name == "outlook" then some (env.outlook.is_configured, env.outlookBeh)
  else none

/-- Overwrite the stored credential row after a successful refresh
(`token_record.* = ...; db.commit()`). -/
def commitRefreshedToken (env : JobEnv) (db : DB) (tok : TokenRecord)
    (access : String) (rd : RefreshResult) : DB :=
  { db with oauth_tokens := db.oauth_tokens.map (fun t =>
      if t.id == tok.id then
        { t with
          access_token_encrypted := env.enc access
          refresh_token_encrypted :=
            match rd.refresh_token with
            | some rt => env.enc rt
            | none => t.refresh_token_encrypted
          token_expiry :=
            match rd.expiry with
            | some x => some x
            | none => t.token_expiry }
      else t) }

/-- The lazy-refresh step of the provider slice: refresh exactly when a
stored expiry exists and is strictly in the past
(`if token_record.token_expiry and token_record.token_expiry <
datetime.utcnow()`).  Returns the updated state and, when the slice may
continue, the access token to poll with. -/
def refreshIfExpired (env : JobEnv) (beh : ProviderBehavior) (tok : TokenRecord)
    (acc : CycleState) : CycleState × Option String :=
  let (db, tr, st) := acc
  let access_token := env.dec tok.access_token_encrypted
  match tok.token_expiry with
  | some exp =>
    if exp < env.now then
      let tr1 := tr ++ [Effect.refreshCall tok.provider]
      match beh.refreshResult with
      | none => ((db, tr1, { st with errors := st.errors + 1 }), none)
      | some rd =>
        let access := rd.access_token.getD access_token
        ((commitRefreshedToken env db tok access rd,
          tr1 ++ [Effect.commitTokens tok.provider], st), some access)
    else ((db, tr, st), some access_token)
  | none => ((db, tr, st), some access_token)

/-- One provider slice of the cycle: adapter lookup and configuration
check, lazy refresh, fetch, then the per-message loop over the fetched
messages in order. -/
def pollProvider (env : JobEnv) (all_applications : List Application)
    (acc : CycleState) (tok : TokenRecord) : CycleState :=
  match providerFor env tok.provider with
  | none => acc
  | some (configured, beh) =>
    if ¬configured then acc
    else
      match refreshIfExpired env beh tok acc with
      | (acc1, none) => acc1
      | ((db, tr, st), some access) =>
        let tr1 := tr ++ [Effect.fetchCall tok.provider access]
        match beh.fetchResult with
        | none => (db, tr1, { st with errors := st.errors + 1 })
        | some emails =>
          emails.foldl (process_email env.cf env.now env.today all_applications)
            (db, tr1, st)

/-- Outcome of one run of the job: early return with no configured
credential rows, normal completion with the cycle counters, or an
unrecovered error (re-raised after rollback). -/
inductive Outcome where
  | noProviders
  | completed (st : Stats)
  | failed
deriving Repr

/-- Model of `email_monitoring_job(db_session_factory)`: read the poll
watermark, snapshot credentials and applications, process each provider
slice sequentially, and only then write the new watermark.  With
`env.fatal = some k` the cycle stops after `k` slices and takes the
outer except path (rollback and re-raise) — committed per-message writes
survive, and the watermark is not written. -/
def email_monitoring_job (env : JobEnv) (db : DB) : DB × List Effect × Outcome :=
  let tr0 : List Effect := [Effect.readSetting "email_last_run"]
  if db.oauth_tokens.isEmpty then (db, tr0, Outcome.noProviders)
  else
    let all_applications := db.applications
    let st0 : Stats := ⟨0, 0, 0, 0⟩
    match env.fatal with
    | some k =>
      let r := (db.oauth_tokens.take k).foldl (pollProvider env all_applications)
        (db, tr0, st0)
      (r.1, r.2.1 ++ [Effect.rollback], Outcome.failed)
    | none =>
      let r := db.oauth_tokens.foldl (pollProvider env all_applications) (db, tr0, st0)
      (set_setting r.1 "email_last_run" (toString env.now),
       r.2.1 ++ [Effect.writeSetting "email_last_run" (toString env.now)],
       Outcome.completed r.2.2)

-- ─────────────────────────────────────────────────────────
-- Matcher lemmas
-- ─────────────────────────────────────────────────────────

/-- Specification of the best-match fold: either no application beats
the incoming accumulator and the fold is the identity, or the fold
returns the first application of the list attaining the maximal score
(strictly above the accumulator, strictly above every earlier scored
application, and at least every later one). -/
theorem matchFold_spec (sd c : String) (l : List Application) :
    ∀ best bs,
      (matchFold sd c l (best, bs) = (best, bs) ∧
        ∀ b ∈ l, hasCompany b = true → appScore sd c b ≤ bs) ∨
      (∃ l1 a l2, l = l1 ++ a :: l2 ∧ hasCompany a = true ∧
        matchFold sd c l (best, bs) = (some a, appScore sd c a) ∧
        bs < appScore sd c a ∧
        (∀ b ∈ l1, hasCompany b = true → appScore sd c b < appScore sd c a) ∧
        (∀ b ∈ l2, hasCompany b = true → appScore sd c b ≤ appScore sd c a)) := by
  induction l with
  | nil =>
    intro best bs
    left
    exact ⟨rfl, by simp⟩
  | cons app rest ih =>
    intro best bs
    by_cases hc : hasCompany app = true
    · by_cases hlt : bs < appScore sd c app
      · rcases ih (some app) (appScore sd c app) with
          ⟨heq, hb⟩ | ⟨l1, a, l2, hsplit, hca, heq, hlt2, h1, h2⟩
        · right
          refine ⟨[], app, rest, by simp, hc, ?_, hlt, by simp, ?_⟩
          · simpa [matchFold, hc, hlt] using heq
          · intro b hb' hcb
            exact hb b hb' hcb
        · right
          refine ⟨app :: l1, a, l2, by simp [hsplit], hca, ?_, ?_, ?_, h2⟩
          · simpa [matchFold, hc, hlt] using heq
          · omega
          · intro b hb' hcb
            rcases List.mem_cons.mp hb' with rfl | hmem
            · exact hlt2
            · exact h1 b hmem hcb
      · rcases ih best bs with
          ⟨heq, hb⟩ | ⟨l1, a, l2, hsplit, hca, heq, hlt2, h1, h2⟩
        · left
          constructor
          · simpa [matchFold, hc, hlt] using heq
          · intro b hb' hcb
            rcases List.mem_cons.mp hb' with rfl | hmem
            · omega
            · exact hb b hmem hcb
        · right
          refine ⟨app :: l1, a, l2, by simp [hsplit], hca, ?_, hlt2, ?_, h2⟩
          · simpa [matchFold, hc, hlt] using heq
          · intro b hb' hcb
            rcases List.mem_cons.mp hb' with rfl | hmem
            · omega
            · exact h1 b hmem hcb
    · rcases ih best bs with
        ⟨heq, hb⟩ | ⟨l1, a, l2, hsplit, hca, heq, hlt2, h1, h2⟩
      · left
        constructor
        · simpa [matchFold, hc] using heq
        · intro b hb' hcb
          rcases List.mem_cons.mp hb' with rfl | hmem
          · exact absurd hcb hc
          · exact hb b hmem hcb
      · right
        refine ⟨app :: l1, a, l2, by simp [hsplit], hca, ?_, hlt2, ?_, h2⟩
        · simpa [matchFold, hc] using heq
        · intro b hb' hcb
          rcases List.mem_cons.mp hb' with rfl | hmem
          · exact absurd hcb hc
          · exact h1 b hmem hcb

/-- If the Matcher returns no application, the returned confidence is 0. -/
theorem auto_match_none_confidence (e : Email) (apps : List Application)
    (h : (auto_match_email_to_application e apps).1 = none) :
    (auto_match_email_to_application e apps).2 = 0 := by
  unfold auto_match_email_to_application at *
  by_cases hg : e.sender_email = "" ∨ apps = []
  · simp [hg]
  · simp only [hg, if_false] at h ⊢
    rcases matchFold_spec (senderDomain e.sender_email) (combinedText e) apps none 0 with
      ⟨heq, _⟩ | ⟨l1, a, l2, _, _, heq, _, _, _⟩
    · simp [heq]
    · simp [heq] at h

/-- The Matcher only ever reports positive confidence together with a
returned application. -/
theorem auto_match_pos_isSome (e : Email) (apps : List Application)
    (h : 0 < (auto_match_email_to_application e apps).2) :
    (auto_match_email_to_application e apps).1.isSome = true := by
  rcases ho : (auto_match_email_to_application e apps).1 with _ | a
  · exact absurd (auto_match_none_confidence e apps ho) (by omega)
  · rfl

-- ─────────────────────────────────────────────────────────
-- Structural lemmas about the per-message step
-- ─────────────────────────────────────────────────────────

/-- The effects the per-message loop can emit: store inserts, a status
update, and the read of the auto-update setting.  In particular the
loop never touches the poll watermark and never performs provider
calls. -/
def messageEffect : Effect → Bool
  | Effect.insertTracking _ => true
  | Effect.insertFollowUp _ => true
  | Effect.updateApplication _ _ => true
  | Effect.readSetting k => k == "email_auto_update"
  | _ => false

theorem reconcileHigh_tracking (today : Int) (cls : Classification) (a : Application)
    (db : DB) (tr : List Effect) (st : Stats) :
    (reconcileHighConfidence today cls a (db, tr, st)).1.email_tracking
      = db.email_tracking := by
  unfold reconcileHighConfidence
  rcases h1 : statusMap cls.stage with _ | ns <;>
    rcases h2 : schedule_followup_from_email cls.stage a.id today with _ | fu <;>
    simp only [h1, h2] <;>
    first
    | rfl
    | (by_cases hset : get_setting db "email_auto_update" (some "true") == some "true" <;>
        simp [hset, update_application, create_follow_up])

theorem reconcileHigh_settings (today : Int) (cls : Classification) (a : Application)
    (db : DB) (tr : List Effect) (st : Stats) :
    (reconcileHighConfidence today cls a (db, tr, st)).1.settings = db.settings := by
  unfold reconcileHighConfidence
  rcases h1 : statusMap cls.stage with _ | ns <;>
    rcases h2 : schedule_followup_from_email cls.stage a.id today with _ | fu <;>
    simp only [h1, h2] <;>
    first
    | rfl
    | (by_cases hset : get_setting db "email_auto_update" (some "true") == some "true" <;>
        simp [hset, update_application, create_follow_up])

theorem reconcileHigh_trace (today : Int) (cls : Classification) (a : Application)
    (db : DB) (tr : List Effect) (st : Stats) :
    ∃ ex, (reconcileHighConfidence today cls a (db, tr, st)).2.1 = tr ++ ex ∧
      ∀ f ∈ ex, messageEffect f = true := by
  unfold reconcileHighConfidence
  rcases h1 : statusMap cls.stage with _ | ns <;>
    rcases h2 : schedule_followup_from_email cls.stage a.id today with _ | fu
  · exact ⟨[], by simp [h1, h2], by simp⟩
  · exact ⟨[Effect.insertFollowUp fu], by simp [h1, h2, create_follow_up], by
      simp [messageEffect]⟩
  · by_cases hset : get_setting db "email_auto_update" (some "true") == some "true"
    · exact ⟨[Effect.readSetting "email_auto_update", Effect.updateApplication a.id ns],
        by simp [h1, h2, hset, update_application], by simp [messageEffect]⟩
    · exact ⟨[Effect.readSetting "email_auto_update"],
        by simp [h1, h2, hset], by simp [messageEffect]⟩
  · by_cases hset : get_setting db "email_auto_update" (some "true") == some "true"
    · exact ⟨[Effect.readSetting "email_auto_update", Effect.updateApplication a.id ns,
          Effect.insertFollowUp fu],
        by simp [h1, h2, hset, update_application, create_follow_up],
        by simp [messageEffect]⟩
    · exact ⟨[Effect.readSetting "email_auto_update", Effect.insertFollowUp fu],
        by simp [h1, h2, hset, create_follow_up], by simp [messageEffect]⟩

/-- A message whose id is already tracked is skipped entirely: the
state, trace and counters are all unchanged. -/
theorem process_email_skip (cf : Email → Classification) (now today : Int)
    (apps : List Application) (acc : CycleState) (e : Email)
    (h : alreadyTracked acc.1 e = true) :
    process_email cf now today apps acc e = acc := by
  obtain ⟨db, tr, st⟩ := acc
  simp [process_email, h]

/-- A fresh message appends exactly its tracking row to the store. -/
theorem process_email_tracking (cf : Email → Classification) (now today : Int)
    (apps : List Application) (db : DB) (tr : List Effect) (st : Stats) (e : Email)
    (h : alreadyTracked db e = false) :
    (process_email cf now today apps (db, tr, st) e).1.email_tracking
      = db.email_tracking ++
        [trackingRecord now (cf e) (auto_match_email_to_application e apps).1
          (auto_match_email_to_application e apps).2 e] := by
  unfold process_email
  rcases hm : (auto_match_email_to_application e apps).1 with _ | a
  · simp [h, hm, create_email_tracking]
  · by_cases h7 : 70 ≤ (auto_match_email_to_application e apps).2
    · simp only [h, Bool.false_eq_true, if_false, hm, h7, if_true]
      rw [reconcileHigh_tracking]
      simp [create_email_tracking]
    · simp [h, hm, h7, create_email_tracking]

theorem process_email_settings (cf : Email → Classification) (now today : Int)
    (apps : List Application) (db : DB) (tr : List Effect) (st : Stats) (e : Email) :
    (process_email cf now today apps (db, tr, st) e).1.settings = db.settings := by
  by_cases h : alreadyTracked db e
  · rw [process_email_skip cf now today apps (db, tr, st) e h]
  · unfold process_email
    rcases hm : (auto_match_email_to_application e apps).1 with _ | a
    · simp [h, hm, create_email_tracking]
    · by_cases h7 : 70 ≤ (auto_match_email_to_application e apps).2
      · simp only [h, Bool.false_eq_true, if_false, hm, h7, if_true]
        rw [reconcileHigh_settings]
        simp [create_email_tracking]
      · simp [h, hm, h7, create_email_tracking]

theorem process_email_trace (cf : Email → Classification) (now today : Int)
    (apps : List Application) (db : DB) (tr : List Effect) (st : Stats) (e : Email) :
    ∃ ex, (process_email cf now today apps (db, tr, st) e).2.1 = tr ++ ex ∧
      ∀ f ∈ ex, messageEffect f = true := by
  by_cases h : alreadyTracked db e
  · exact ⟨[], by rw [process_email_skip cf now today apps (db, tr, st) e h]; simp, by simp⟩
  · unfold process_email
    rcases hm : (auto_match_email_to_application e apps).1 with _ | a
    · exact ⟨[Effect.insertTracking
          (trackingRecord now (cf e) none (auto_match_email_to_application e apps).2 e)],
        by simp [h, hm], by simp [messageEffect]⟩
    · by_cases h7 : 70 ≤ (auto_match_email_to_application e apps).2
      · simp only [h, Bool.false_eq_true, if_false, hm, h7, if_true]
        obtain ⟨ex, hex, hall⟩ := reconcileHigh_trace today (cf e) a
          (create_email_tracking db
            (trackingRecord now (cf e) (some a) (auto_match_email_to_application e apps).2 e))
          (tr ++ [Effect.insertTracking
            (trackingRecord now (cf e) (some a) (auto_match_email_to_application e apps).2 e)])
          { st with processed := st.processed + 1 }
        refine ⟨Effect.insertTracking
          (trackingRecord now (cf e) (some a) (auto_match_email_to_application e apps).2 e)
            :: ex, ?_, ?_⟩
        · rw [hex]; simp
        · intro f hf
          rcases List.mem_cons.mp hf with rfl | hf'
          · simp [messageEffect]
          · exact hall f hf'
      · exact ⟨[Effect.insertTracking
            (trackingRecord now (cf e) (some a) (auto_match_email_to_application e apps).2 e)],
          by simp [h, hm, h7], by simp [messageEffect]⟩

/-- After processing a message its id is tracked, whether it was new or
already present. -/
theorem process_email_tracked (cf : Email → Classification) (now today : Int)
    (apps : List Application) (db : DB) (tr : List Effect) (st : Stats) (e : Email) :
    alreadyTracked (process_email cf now today apps (db, tr, st) e).1 e = true := by
  by_cases h : alreadyTracked db e
  · rw [process_email_skip cf now today apps (db, tr, st) e h]
    exact h
  · unfold alreadyTracked
    rw [process_email_tracking cf now today apps db tr st e (by simpa using h)]
    simp [trackingRecord]

-- ─────────────────────────────────────────────────────────
-- Structural lemmas about a provider slice and the token loop
-- ─────────────────────────────────────────────────────────

/-- The effects a provider slice can emit: message effects plus the
provider calls and the credential commit.  Still no watermark access. -/
def sliceEffect : Effect → Bool
  | Effect.refreshCall _ => true
  | Effect.commitTokens _ => true
  | Effect.fetchCall _ _ => true
  | f => messageEffect f

theorem messageEffect_slice (f : Effect) (h : messageEffect f = true) :
    sliceEffect f = true := by
  cases f <;> simp_all [messageEffect, sliceEffect]

theorem foldl_process_settings (cf : Email → Classification) (now today : Int)
    (apps : List Application) (emails : List Email) :
    ∀ acc : CycleState,
      ((emails.foldl (process_email cf now today apps) acc).1.settings = acc.1.settings) := by
  induction emails with
  | nil => intro acc; rfl
  | cons e rest ih =>
    intro acc
    obtain ⟨db, tr, st⟩ := acc
    rw [List.foldl_cons, ih (process_email cf now today apps (db, tr, st) e)]
    exact process_email_settings cf now today apps db tr st e

theorem foldl_process_trace (cf : Email → Classification) (now today : Int)
    (apps : List Application) (emails : List Email) :
    ∀ acc : CycleState,
      ∃ ex, (emails.foldl (process_email cf now today apps) acc).2.1 = acc.2.1 ++ ex ∧
        ∀ f ∈ ex, messageEffect f = true := by
  induction emails with
  | nil => intro acc; exact ⟨[], by simp, by simp⟩
  | cons e rest ih =>
    intro acc
    obtain ⟨db, tr, st⟩ := acc
    obtain ⟨ex1, hex1, hall1⟩ := process_email_trace cf now today apps db tr st e
    obtain ⟨ex2, hex2, hall2⟩ := ih (process_email cf now today apps (db, tr, st) e)
    refine ⟨ex1 ++ ex2, ?_, ?_⟩
    · rw [List.foldl_cons, hex2, hex1]
      simp
    · intro f hf
      rcases List.mem_append.mp hf with hf1 | hf2
      · exact hall1 f hf1
      · exact hall2 f hf2

theorem refreshIfExpired_settings (env : JobEnv) (beh : ProviderBehavior)
    (tok : TokenRecord) (db : DB) (tr : List Effect) (st : Stats) :
    (refreshIfExpired env beh tok (db, tr, st)).1.1.settings = db.settings := by
  unfold refreshIfExpired
  rcases tok.token_expiry with _ | exp
  · rfl
  · by_cases hlt : exp < env.now
    · rcases beh.refreshResult with _ | rd <;> simp [hlt, commitRefreshedToken]
    · simp [hlt]

theorem refreshIfExpired_trace (env : JobEnv) (beh : ProviderBehavior)
    (tok : TokenRecord) (db : DB) (tr : List Effect) (st : Stats) :
    ∃ ex, (refreshIfExpired env beh tok (db, tr, st)).1.2.1 = tr ++ ex ∧
      ∀ f ∈ ex, sliceEffect f = true := by
  unfold refreshIfExpired
  rcases tok.token_expiry with _ | exp
  · exact ⟨[], by simp, by simp⟩
  · by_cases hlt : exp < env.now
    · rcases hr : beh.refreshResult with _ | rd
      · exact ⟨[Effect.refreshCall tok.provider], by simp [hlt, hr], by simp [sliceEffect]⟩
      · exact ⟨[Effect.refreshCall tok.provider, Effect.commitTokens tok.provider],
          by simp [hlt, hr], by simp [sliceEffect]⟩
    · exact ⟨[], by simp [hlt], by simp⟩

theorem pollProvider_settings (env : JobEnv) (apps : List Application)
    (acc : CycleState) (tok : TokenRecord) :
    (pollProvider env apps acc tok).1.settings = acc.1.settings := by
  obtain ⟨db, tr, st⟩ := acc
  unfold pollProvider
  rcases hp : providerFor env tok.provider with _ | ⟨cfg, beh⟩
  · rfl
  · by_cases hcfg : cfg
    · rcases hr : refreshIfExpired env beh tok (db, tr, st) with ⟨⟨db1, tr1, st1⟩, _ | access⟩
      · have hs := refreshIfExpired_settings env beh tok db tr st
        rw [hr] at hs
        simp only [hcfg, if_true, hr]
        exact hs
      · have hs := refreshIfExpired_settings env beh tok db tr st
        rw [hr] at hs
        rcases hf : beh.fetchResult with _ | emails
        · simp only [hcfg, if_true, hr, hf]
          exact hs
        · have hfold := foldl_process_settings env.cf env.now env.today apps emails
            (db1, tr1 ++ [Effect.fetchCall tok.provider access], st1)
          simp only [hcfg, if_true, hr, hf]
          simp at hfold ⊢
          rw [hfold]
          exact hs
    · simp [hcfg]

theorem pollProvider_trace (env : JobEnv) (apps : List Application)
    (acc : CycleState) (tok : TokenRecord) :
    ∃ ex, (pollProvider env apps acc tok).2.1 = acc.2.1 ++ ex ∧
      ∀ f ∈ ex, sliceEffect f = true := by
  obtain ⟨db, tr, st⟩ := acc
  unfold pollProvider
  rcases hp : providerFor env tok.provider with _ | ⟨cfg, beh⟩
  · exact ⟨[], by simp, by simp⟩
  · by_cases hcfg : cfg
    · rcases hr : refreshIfExpired env beh tok (db, tr, st) with ⟨⟨db1, tr1, st1⟩, oacc⟩
      have htr := refreshIfExpired_trace env beh tok db tr st
      rw [hr] at htr
      obtain ⟨ex1, hex1, hall1⟩ := htr
      rcases oacc with _ | access
      · exact ⟨ex1, by simp [hcfg, hr]; exact hex1, hall1⟩
      · simp only at hex1
        rcases hf : beh.fetchResult with _ | emails
        · refine ⟨ex1 ++ [Effect.fetchCall tok.provider access], ?_, ?_⟩
          · simp only [hcfg, if_true, hr, hf]
            simp
            rw [hex1]
            simp
          · intro f hf'
            rcases List.mem_append.mp hf' with h1 | h2
            · exact hall1 f h1
            · simp at h2
              subst h2
              rfl
        · obtain ⟨ex2, hex2, hall2⟩ := foldl_process_trace env.cf env.now env.today apps
            emails (db1, tr1 ++ [Effect.fetchCall tok.provider access], st1)
          refine ⟨ex1 ++ [Effect.fetchCall tok.provider access] ++ ex2, ?_, ?_⟩
          · simp only [hcfg, if_true, hr, hf]
            simp at hex2 ⊢
            rw [hex2, hex1]
            simp
          · intro f hf'
            simp only [List.mem_append] at hf'
            rcases hf' with (h1 | h2) | h3
            · exact hall1 f h1
            · simp at h2
              subst h2
              rfl
            · exact messageEffect_slice f (hall2 f h3)
    · exact ⟨[], by simp [hcfg], by simp⟩

theorem foldl_poll_settings (env : JobEnv) (apps : List Application)
    (toks : List TokenRecord) :
    ∀ acc : CycleState,
      ((toks.foldl (pollProvider env apps) acc).1.settings = acc.1.settings) := by
  induction toks with
  | nil => intro acc; rfl
  | cons tok rest ih =>
    intro acc
    rw [List.foldl_cons, ih (pollProvider env apps acc tok)]
    exact pollProvider_settings env apps acc tok

theorem foldl_poll_trace (env : JobEnv) (apps : List Application)
    (toks : List TokenRecord) :
    ∀ acc : CycleState,
      ∃ ex, (toks.foldl (pollProvider env apps) acc).2.1 = acc.2.1 ++ ex ∧
        ∀ f ∈ ex, sliceEffect f = true := by
  induction toks with
  | nil => intro acc; exact ⟨[], by simp, by simp⟩
  | cons tok rest ih =>
    intro acc
    obtain ⟨ex1, hex1, hall1⟩ := pollProvider_trace env apps acc tok
    obtain ⟨ex2, hex2, hall2⟩ := ih (pollProvider env apps acc tok)
    refine ⟨ex1 ++ ex2, ?_, ?_⟩
    · rw [List.foldl_cons, hex2, hex1]
      simp
    · intro f hf
      rcases List.mem_append.mp hf with h1 | h2
      · exact hall1 f h1
      · exact hall2 f h2

/-- No effect emitted inside the provider loop touches the poll
watermark setting. -/
theorem sliceEffect_no_watermark (f : Effect) (h : sliceEffect f = true) :
    (∀ v, f ≠ Effect.writeSetting "email_last_run" v) ∧
      f ≠ Effect.readSetting "email_last_run" := by
  cases f <;> simp_all [sliceEffect, messageEffect]

-- ─────────────────────────────────────────────────────────
-- Concrete scenario data
-- ─────────────────────────────────────────────────────────

/-- The scenario application "Acme Corp / Backend Engineer", status Applied. -/
def acmeApp : Application := ⟨1, some "Acme Corp", some "Backend Engineer", "Applied"⟩

/-- The scenario classification `{stage: rejection, confidence: 0.82}`. -/
def rejectionCls : Classification := ⟨some "rejection", some 82, some []⟩

/-- A classification oracle that labels every message as the scenario
rejection. -/
def rejectionOracle : Email → Classification := fun _ => rejectionCls

/-- The scenario store: one application, auto-update enabled. -/
def scenarioDB : DB := ⟨[acmeApp], [], [], [], [("email_auto_update", "true")]⟩

/-- The scenario email from hr@acme.com; the body does not mention the
company name, so only the domain strategy fires (match score 0.6). -/
def rejectionEmailPlain : Email :=
  ⟨"m1", "hr@acme.com", "HR", "Unfortunately, we have decided...", ""⟩

/-- The scenario email with the literal company name in the body, so the
domain and company-name strategies both fire (match score 0.9). -/
def rejectionEmailNamed : Email :=
  ⟨"m2", "hr@acme.com", "HR", "Unfortunately, we have decided...",
   "We thank you for your interest in Acme Corp."⟩

/-- Tie-break scenario: "Acme Inc", listed with a sibling that scores
the same. -/
def acmeInc : Application := ⟨7, some "Acme Inc", none, "Applied"⟩

/-- Tie-break scenario: "Acme Corp", sibling of `acmeInc`. -/
def acmeCorp : Application := ⟨8, some "Acme Corp", none, "Applied"⟩

/-- A message whose sender domain ties both Acme applications at 0.6. -/
def tieEmail : Email := ⟨"m3", "recruiting@acme.com", "R", "Quick question", "hello"⟩

/-- A pre-existing tracking row with the id of `rejectionEmailPlain`. -/
def existingRecord : MessageRecord :=
  ⟨none, "m1", "hr@acme.com", "HR", "Unfortunately, we have decided...", "",
   400, "other", 0, false, none, true, none⟩

/-- Cycle state that already tracks message id "m1". -/
def trackedState : CycleState :=
  (⟨[acmeApp], [existingRecord], [], [], [("email_auto_update", "true")]⟩, [], ⟨0, 0, 0, 0⟩)

/-- Environment for the unrecovered-error witness: one credential row,
cycle aborts immediately. -/
def envFatal : JobEnv :=
  { gmail := ⟨"", "", false⟩, outlook := ⟨"", "", false⟩,
    gmailBeh := ⟨none, none⟩, outlookBeh := ⟨none, none⟩,
    cf := rejectionOracle, now := 500, today := 100,
    enc := id, dec := id, fatal := some 0 }

/-- A store carrying a credential row and a previous watermark value. -/
def dbWithToken : DB :=
  ⟨[], [], [], [⟨1, "gmail", "at", "rt", none⟩], [("email_last_run", "2024-01-01T00:00:00")]⟩

-- ─────────────────────────────────────────────────────────
-- Claim theorems
-- ─────────────────────────────────────────────────────────

/-- C6: the poll watermark (`email_last_run`) is read exactly once, at
the head of the cycle's effect trace; any write of it is the very last
effect of the trace; and when the cycle ends in an unrecovered error the
watermark is never written and its stored value is unchanged. -/
theorem C6_watermark_read_once_written_last (env : JobEnv) (db : DB) :
    ∃ rest, (email_monitoring_job env db).2.1
        = Effect.readSetting "email_last_run" :: rest ∧
      Effect.readSetting "email_last_run" ∉ rest ∧
      (∀ v, Effect.writeSetting "email_last_run" v ∈ (email_monitoring_job env db).2.1 →
        (email_monitoring_job env db).2.1.getLast?
          = some (Effect.writeSetting "email_last_run" v)) ∧
      (env.fatal = none → db.oauth_tokens.isEmpty = false →
        (email_monitoring_job env db).2.1.getLast?
          = some (Effect.writeSetting "email_last_run" (toString env.now))) ∧
      (env.fatal ≠ none →
        (∀ v, Effect.writeSetting "email_last_run" v ∉ (email_monitoring_job env db).2.1) ∧
        get_setting (email_monitoring_job env db).1 "email_last_run" none
          = get_setting db "email_last_run" none) := by
  by_cases htok : db.oauth_tokens.isEmpty
  · refine ⟨[], by simp [email_monitoring_job, htok], by simp, ?_, ?_, ?_⟩
    · intro v hv
      simp [email_monitoring_job, htok] at hv
    · intro _ h2
      rw [htok] at h2
      cases h2
    · intro _
      refine ⟨?_, by simp [email_monitoring_job, htok]⟩
      intro v hv
      simp [email_monitoring_job, htok] at hv
  · rcases hf : env.fatal with _ | k
    · obtain ⟨ex, hex, hall⟩ := foldl_poll_trace env db.applications db.oauth_tokens
        (db, [Effect.readSetting "email_last_run"], ⟨0, 0, 0, 0⟩)
      have htrace : (email_monitoring_job env db).2.1
          = Effect.readSetting "email_last_run"
              :: (ex ++ [Effect.writeSetting "email_last_run" (toString env.now)]) := by
        simp only [email_monitoring_job, htok, Bool.false_eq_true, if_false, hf]
        rw [hex]
        simp
      have hlast : (email_monitoring_job env db).2.1.getLast?
          = some (Effect.writeSetting "email_last_run" (toString env.now)) := by
        rw [htrace]
        have hassoc : Effect.readSetting "email_last_run"
            :: (ex ++ [Effect.writeSetting "email_last_run" (toString env.now)])
            = (Effect.readSetting "email_last_run" :: ex)
              ++ [Effect.writeSetting "email_last_run" (toString env.now)] := by simp
        rw [hassoc, List.getLast?_concat]
      refine ⟨ex ++ [Effect.writeSetting "email_last_run" (toString env.now)],
        htrace, ?_, ?_, fun _ _ => hlast, ?_⟩
      · intro hmem
        rcases List.mem_append.mp hmem with h1 | h2
        · exact absurd rfl (sliceEffect_no_watermark _ (hall _ h1)).2.symm
        · simp at h2
      · intro v hv
        rw [htrace] at hv
        rcases List.mem_cons.mp hv with h0 | h1
        · exact absurd h0.symm (by simp)
        · rcases List.mem_append.mp h1 with h2 | h3
          · exact absurd rfl ((sliceEffect_no_watermark _ (hall _ h2)).1 v).symm
          · simp at h3
            subst h3
            rw [htrace]
            have : Effect.readSetting "email_last_run"
                :: (ex ++ [Effect.writeSetting "email_last_run" (toString env.now)])
                = (Effect.readSetting "email_last_run" :: ex)
                  ++ [Effect.writeSetting "email_last_run" (toString env.now)] := by simp
            rw [this, List.getLast?_concat]
      · intro hcontra
        exact absurd rfl hcontra
    · obtain ⟨ex, hex, hall⟩ := foldl_poll_trace env db.applications (db.oauth_tokens.take k)
        (db, [Effect.readSetting "email_last_run"], ⟨0, 0, 0, 0⟩)
      have htrace : (email_monitoring_job env db).2.1
          = Effect.readSetting "email_last_run" :: (ex ++ [Effect.rollback]) := by
        simp only [email_monitoring_job, htok, Bool.false_eq_true, if_false, hf]
        rw [hex]
        simp
      have hnowrite : ∀ v, Effect.writeSetting "email_last_run" v
          ∉ (email_monitoring_job env db).2.1 := by
        intro v hv
        rw [htrace] at hv
        rcases List.mem_cons.mp hv with h0 | h1
        · exact absurd h0 (by simp)
        · rcases List.mem_append.mp h1 with h2 | h3
          · exact absurd rfl ((sliceEffect_no_watermark _ (hall _ h2)).1 v).symm
          · simp at h3
      refine ⟨ex ++ [Effect.rollback], htrace, ?_, ?_, ?_, ?_⟩
      · intro hmem
        rcases List.mem_append.mp hmem with h1 | h2
        · exact absurd rfl (sliceEffect_no_watermark _ (hall _ h1)).2.symm
        · simp at h2
      · intro v hv
        exact absurd hv (hnowrite v)
      · intro h1 _
        cases h1
      · intro _
        refine ⟨hnowrite, ?_⟩
        have hs := foldl_poll_settings env db.applications (db.oauth_tokens.take k)
          (db, [Effect.readSetting "email_last_run"], ⟨0, 0, 0, 0⟩)
        simp only [email_monitoring_job, htok, Bool.false_eq_true, if_false, hf]
        simp [get_setting, hs]

/-- Witness for C6: in a concrete aborted cycle over one credential row
the stored watermark value is untouched. -/
theorem C6_watermark_read_once_written_last_witness :
    get_setting (email_monitoring_job envFatal dbWithToken).1 "email_last_run" none
      = get_setting dbWithToken "email_last_run" none := by
  obtain ⟨rest, h1, h2, h3, h4, h5⟩ := C6_watermark_read_once_written_last envFatal dbWithToken
  exact (h5 (by simp [envFatal])).2

/-- C1: a message whose id is already tracked is skipped entirely —
before classification, matching, record creation, status update or
follow-up creation — leaving store, trace and counters unchanged; a
fresh message yields exactly one tracking row for its id; and
reprocessing the same message is a no-op (one MessageRecord, no
duplicate FollowUpTask). -/
theorem C1_dedup_idempotent (cf : Email → Classification) (now today : Int)
    (apps : List Application) (acc : CycleState) (e : Email) :
    (alreadyTracked acc.1 e = true → process_email cf now today apps acc e = acc) ∧
    (alreadyTracked acc.1 e = false →
      ((process_email cf now today apps acc e).1.email_tracking.filter
          (fun r => r.email_id == e.email_id)).length = 1) ∧
    process_email cf now today apps (process_email cf now today apps acc e) e
      = process_email cf now today apps acc e := by
  obtain ⟨db, tr, st⟩ := acc
  refine ⟨process_email_skip cf now today apps (db, tr, st) e, ?_, ?_⟩
  · intro h
    rw [process_email_tracking cf now today apps db tr st e h, List.filter_append]
    have hnone : db.email_tracking.filter (fun r => r.email_id == e.email_id) = [] := by
      rw [List.filter_eq_nil_iff]
      intro r hr hc
      have htracked : alreadyTracked db e = true := by
        unfold alreadyTracked
        rw [List.any_eq_true]
        exact ⟨r, hr, hc⟩
      rw [h] at htracked
      cases htracked
    rw [hnone]
    simp [trackingRecord]
  · exact process_email_skip cf now today apps _ e
      (process_email_tracked cf now today apps db tr st e)

/-- Witness for C1: the concrete already-tracked message "m1" is
skipped, leaving the state unchanged. -/
theorem C1_dedup_idempotent_witness :
    process_email rejectionOracle 500 100 [acmeApp] trackedState rejectionEmailPlain
      = trackedState :=
  (C1_dedup_idempotent rejectionOracle 500 100 [acmeApp] trackedState
    rejectionEmailPlain).1 (by decide)

/-- C2 counterexample: in the spec's scenario (Acme Corp application in
status Applied, mail from hr@acme.com classified rejection/0.82 with
auto-update enabled, company name not in the text), the record is
stored linked and auto-matched, but the application stays "Applied" and
no follow-up is created — because the ≥ 0.7 gate uses the Matcher's
0.6, not the classifier's 0.82. -/
theorem C2_rejection_scenario_counterexample :
    (auto_match_email_to_application rejectionEmailPlain [acmeApp]).2 = 60 ∧
    (process_email rejectionOracle 500 100 [acmeApp]
        (scenarioDB, [], ⟨0, 0, 0, 0⟩) rejectionEmailPlain).1.email_tracking.map
        (fun r => (r.application_id, r.auto_matched)) = [(some 1, true)] ∧
    (process_email rejectionOracle 500 100 [acmeApp]
        (scenarioDB, [], ⟨0, 0, 0, 0⟩) rejectionEmailPlain).1.applications.map
        Application.status = ["Applied"] ∧
    (process_email rejectionOracle 500 100 [acmeApp]
        (scenarioDB, [], ⟨0, 0, 0, 0⟩) rejectionEmailPlain).1.follow_ups = [] := by
  decide

/-- C2 amended: with the company name also present in the message text
(raising the match confidence to 0.9 ≥ 0.7) the scenario behaves as the
claim expects — linked auto-matched record, status Rejected, and exactly
one follow-up for the next day whose rationale references a gracious
response. -/
theorem C2_rejection_scenario_amended :
    (auto_match_email_to_application rejectionEmailNamed [acmeApp]).2 = 90 ∧
    (process_email rejectionOracle 500 100 [acmeApp]
        (scenarioDB, [], ⟨0, 0, 0, 0⟩) rejectionEmailNamed).1.email_tracking.map
        (fun r => (r.application_id, r.auto_matched)) = [(some 1, true)] ∧
    (process_email rejectionOracle 500 100 [acmeApp]
        (scenarioDB, [], ⟨0, 0, 0, 0⟩) rejectionEmailNamed).1.applications.map
        Application.status = ["Rejected"] ∧
    (process_email rejectionOracle 500 100 [acmeApp]
        (scenarioDB, [], ⟨0, 0, 0, 0⟩) rejectionEmailNamed).1.follow_ups
      = [⟨1, "Email Follow-up", 101,
          "Auto-created: Send gracious response to rejection"⟩] := by
  decide

/-- C3 counterexample: at match confidence 0.9 ≥ 0.7 the stored record
has `user_confirmed` set to true — not left unset — so the review queue
of auto-matched pending records does not contain it. -/
theorem C3_high_confidence_counterexample :
    70 ≤ (auto_match_email_to_application rejectionEmailNamed [acmeApp]).2 ∧
    (process_email rejectionOracle 500 100 [acmeApp]
        (scenarioDB, [], ⟨0, 0, 0, 0⟩) rejectionEmailNamed).1.email_tracking.map
        MessageRecord.user_confirmed = [some true] ∧
    get_unconfirmed_matches (process_email rejectionOracle 500 100 [acmeApp]
        (scenarioDB, [], ⟨0, 0, 0, 0⟩) rejectionEmailNamed).1 = [] := by
  decide

/-- C3 amended: for every fresh message with match confidence ≥ 0.7 the
stored record is linked and auto-matched, but `user_confirmed` is set to
true (auto-confirmed), so the record never enters the review queue —
which is left exactly as it was. -/
theorem C3_high_confidence_auto_confirmed (cf : Email → Classification)
    (now today : Int) (apps : List Application) (acc : CycleState) (e : Email)
    (hnew : alreadyTracked acc.1 e = false)
    (hconf : 70 ≤ (auto_match_email_to_application e apps).2) :
    ∃ r, (process_email cf now today apps acc e).1.email_tracking
        = acc.1.email_tracking ++ [r] ∧
      r.application_id.isSome = true ∧
      r.auto_matched = true ∧
      r.user_confirmed = some true ∧
      get_unconfirmed_matches (process_email cf now today apps acc e).1
        = get_unconfirmed_matches acc.1 := by
  obtain ⟨db, tr, st⟩ := acc
  have htrk := process_email_tracking cf now today apps db tr st e hnew
  have hsome := auto_match_pos_isSome e apps (by omega)
  obtain ⟨a, hm⟩ := Option.isSome_iff_exists.mp hsome
  refine ⟨trackingRecord now (cf e) (auto_match_email_to_application e apps).1
    (auto_match_email_to_application e apps).2 e, htrk, ?_, ?_, ?_, ?_⟩
  · simp [trackingRecord, hm]
    omega
  · simp [trackingRecord]
    omega
  · simp [trackingRecord]
    omega
  · unfold get_unconfirmed_matches
    rw [htrk, List.filter_append]
    have : (trackingRecord now (cf e) (auto_match_email_to_application e apps).1
        (auto_match_email_to_application e apps).2 e).user_confirmed = some true := by
      simp [trackingRecord]
      omega
    simp [this]

/-- Witness for C3: in the concrete 0.9-confidence scenario the review
queue after processing equals the (empty) review queue before. -/
theorem C3_high_confidence_auto_confirmed_witness :
    get_unconfirmed_matches (process_email rejectionOracle 500 100 [acmeApp]
        (scenarioDB, [], ⟨0, 0, 0, 0⟩) rejectionEmailNamed).1
      = get_unconfirmed_matches scenarioDB := by
  obtain ⟨r, h1, h2, h3, h4, h5⟩ := C3_high_confidence_auto_confirmed rejectionOracle
    500 100 [acmeApp] (scenarioDB, [], ⟨0, 0, 0, 0⟩) rejectionEmailNamed
    (by decide) (by decide)
  exact h5

/-- C4: the Matcher's per-application score is the sum of the 0.6
domain-slug bonus, the 0.3 company-name bonus and the 0.1 role-title
bonus; it never exceeds 1.0, nor does the returned capped confidence;
Acme Corp with sender domain acme.com scores ≥ 0.6, and with the
literal company name in the body ≥ 0.9.  (Scores in hundredths.) -/
theorem C4_matcher_scoring :
    (∀ sender_domain combined app, appScore sender_domain combined app ≤ 100) ∧
    (∀ sender_domain combined app,
      appScore sender_domain combined app
        = (if domainHit sender_domain (lowerStr (app.company.getD "")) then 60 else 0)
          + (if containsStr combined (lowerStr (app.company.getD "")) then 30 else 0)
          + (if lowerStr (app.role.getD "") ≠ "" &&
                containsStr combined (lowerStr (app.role.getD "")) then 10 else 0)) ∧
    (∀ e apps, (auto_match_email_to_application e apps).2 ≤ 100) ∧
    60 ≤ appScore (senderDomain "hr@acme.com") (combinedText rejectionEmailPlain) acmeApp ∧
    90 ≤ appScore (senderDomain "hr@acme.com") (combinedText rejectionEmailNamed) acmeApp := by
  refine ⟨?_, fun _ _ _ => rfl, ?_, by decide, by decide⟩
  · intro sender_domain combined app
    simp only [appScore]
    split_ifs <;> omega
  · intro e apps
    unfold auto_match_email_to_application
    by_cases hg : e.sender_email = "" ∨ apps = []
    · simp [hg]
    · simp [hg]

/-- C5: the Classifier Client never propagates a failure of the external
classification call: every failing call yields exactly
`{stage: other, confidence: 0.0, extracted fields empty}`. -/
theorem C5_classifier_absorbs_failures :
    ∀ (subject body sender_domain err : String),
      classify_email_stage subject body sender_domain (Except.error err)
        = { stage := some "other", confidence := some 0, extracted_data := some [] } :=
  fun _ _ _ _ => rfl

/-- Message effects are never provider calls. -/
theorem messageEffect_not_provider_call (f : Effect) (h : messageEffect f = true) :
    (∀ p, f ≠ Effect.refreshCall p) ∧ (∀ p a, f ≠ Effect.fetchCall p a) := by
  cases f <;> simp_all [messageEffect]

/-- C7: within a provider slice, `refresh_access_token` is invoked iff
the stored expiry exists and is strictly before the clock at the moment
the poll needs the token; a credential with an absent or future expiry
is polled with its stored (decrypted) access token, unrefreshed. -/
theorem C7_lazy_refresh (env : JobEnv) (apps : List Application) (db : DB)
    (st : Stats) (tok : TokenRecord) (beh : ProviderBehavior)
    (hp : providerFor env tok.provider = some (true, beh)) :
    ((Effect.refreshCall tok.provider ∈ (pollProvider env apps (db, [], st) tok).2.1) ↔
      (∃ exp, tok.token_expiry = some exp ∧ exp < env.now)) ∧
    ((tok.token_expiry = none ∨ ∃ exp, tok.token_expiry = some exp ∧ env.now ≤ exp) →
      Effect.fetchCall tok.provider (env.dec tok.access_token_encrypted)
        ∈ (pollProvider env apps (db, [], st) tok).2.1) := by
  have hprefix : ∀ (db1 : DB) (tr1 : List Effect) (st1 : Stats) (oa : Option String),
      refreshIfExpired env beh tok (db, [], st) = ((db1, tr1, st1), oa) →
      ∃ suf, (pollProvider env apps (db, [], st) tok).2.1 = tr1 ++ suf := by
    intro db1 tr1 st1 oa hx
    rcases oa with _ | access
    · exact ⟨[], by simp [pollProvider, hp, hx]⟩
    · rcases hfr : beh.fetchResult with _ | emails
      · exact ⟨[Effect.fetchCall tok.provider access],
          by simp [pollProvider, hp, hx, hfr]⟩
      · obtain ⟨ex, hex, _⟩ := foldl_process_trace env.cf env.now env.today apps emails
          (db1, tr1 ++ [Effect.fetchCall tok.provider access], st1)
        refine ⟨Effect.fetchCall tok.provider access :: ex, ?_⟩
        simp only [pollProvider, hp, hx, hfr]
        simp at hex ⊢
        rw [hex]
  have hfetchpath :
      refreshIfExpired env beh tok (db, [], st)
          = ((db, [], st), some (env.dec tok.access_token_encrypted)) →
      (Effect.refreshCall tok.provider
          ∉ (pollProvider env apps (db, [], st) tok).2.1) ∧
      Effect.fetchCall tok.provider (env.dec tok.access_token_encrypted)
          ∈ (pollProvider env apps (db, [], st) tok).2.1 := by
    intro hre
    rcases hfr : beh.fetchResult with _ | emails
    · have hpoll : (pollProvider env apps (db, [], st) tok).2.1
          = [Effect.fetchCall tok.provider (env.dec tok.access_token_encrypted)] := by
        simp [pollProvider, hp, hre, hfr]
      rw [hpoll]
      simp
    · obtain ⟨ex, hex, hall⟩ := foldl_process_trace env.cf env.now env.today apps emails
        (db, [] ++ [Effect.fetchCall tok.provider (env.dec tok.access_token_encrypted)], st)
      have hpoll : (pollProvider env apps (db, [], st) tok).2.1
          = Effect.fetchCall tok.provider (env.dec tok.access_token_encrypted) :: ex := by
        simp only [pollProvider, hp, hre, hfr]
        simp at hex ⊢
        exact hex
      rw [hpoll]
      constructor
      · intro hmem
        rcases List.mem_cons.mp hmem with h0 | h1
        · cases h0
        · exact absurd rfl
            ((messageEffect_not_provider_call _ (hall _ h1)).1 tok.provider).symm
      · simp
  obtain ⟨tid, tprov, tacc, tref, texp⟩ := tok
  rcases texp with _ | exp
  · have hre : refreshIfExpired env beh ⟨tid, tprov, tacc, tref, none⟩ (db, [], st)
        = ((db, [], st), some (env.dec tacc)) := rfl
    obtain ⟨hno, hin⟩ := hfetchpath hre
    refine ⟨⟨fun hmem => absurd hmem hno, ?_⟩, fun _ => hin⟩
    rintro ⟨e', he', _⟩
    exact Option.noConfusion he'
  · by_cases hlt : exp < env.now
    · constructor
      · refine ⟨fun _ => ⟨exp, rfl, hlt⟩, fun _ => ?_⟩
        rcases hr : beh.refreshResult with _ | rd
        · have hx : refreshIfExpired env beh ⟨tid, tprov, tacc, tref, some exp⟩ (db, [], st)
              = ((db, [] ++ [Effect.refreshCall tprov], { st with errors := st.errors + 1 }),
                 none) := by
            unfold refreshIfExpired
            simp [hlt, hr]
          obtain ⟨suf, hsuf⟩ := hprefix _ _ _ _ hx
          rw [hsuf]
          simp
        · have hx : refreshIfExpired env beh ⟨tid, tprov, tacc, tref, some exp⟩ (db, [], st)
              = ((commitRefreshedToken env db ⟨tid, tprov, tacc, tref, some exp⟩
                    (rd.access_token.getD (env.dec tacc)) rd,
                  ([] ++ [Effect.refreshCall tprov]) ++ [Effect.commitTokens tprov], st),
                 some (rd.access_token.getD (env.dec tacc))) := by
            unfold refreshIfExpired
            simp [hlt, hr]
          obtain ⟨suf, hsuf⟩ := hprefix _ _ _ _ hx
          rw [hsuf]
          simp
      · rintro (hnone | ⟨exp', he', hge⟩)
        · exact Option.noConfusion hnone
        · injection he' with he''
          omega
    · have hre : refreshIfExpired env beh ⟨tid, tprov, tacc, tref, some exp⟩ (db, [], st)
          = ((db, [], st), some (env.dec tacc)) := by
        unfold refreshIfExpired
        simp [hlt]
      obtain ⟨hno, hin⟩ := hfetchpath hre
      refine ⟨⟨fun hmem => absurd hmem hno, ?_⟩, fun _ => hin⟩
      rintro ⟨e', he', hlt'⟩
      injection he' with he''
      subst he''
      exact absurd hlt' hlt

/-- Environment for the refresh witness: a configured Gmail adapter
whose refresh succeeds and whose fetch returns no messages. -/
def envRefresh : JobEnv :=
  { gmail := ⟨"client-id", "client-secret", true⟩, outlook := ⟨"", "", false⟩,
    gmailBeh := ⟨some ⟨some "fresh-token", none, some 900⟩, some []⟩,
    outlookBeh := ⟨none, none⟩, cf := rejectionOracle, now := 500, today := 100,
    enc := id, dec := id, fatal := none }

/-- A credential row whose stored expiry (10) is before the clock (500). -/
def expiredTok : TokenRecord := ⟨1, "gmail", "stored-access", "stored-refresh", some 10⟩

/-- Witness for C7: the expired concrete credential triggers a refresh
call during its provider slice. -/
theorem C7_lazy_refresh_witness :
    Effect.refreshCall "gmail"
      ∈ (pollProvider envRefresh [] (⟨[], [], [], [], []⟩, [], ⟨0, 0, 0, 0⟩) expiredTok).2.1 :=
  (C7_lazy_refresh envRefresh [] ⟨[], [], [], [], []⟩ ⟨0, 0, 0, 0⟩ expiredTok
    envRefresh.gmailBeh rfl).1.mpr ⟨10, rfl, by decide⟩

/-- C8: whenever the Matcher returns an application it is one of maximal
score, and the first such in the input ordering — every earlier
candidate scores strictly less, every candidate at most as much; in the
concrete tie both Acme applications score 0.6 and whichever is listed
first is returned. -/
theorem C8_tie_first_wins :
    (∀ (e : Email) (apps : List Application) (a : Application),
      (auto_match_email_to_application e apps).1 = some a →
      ∃ l1 l2, apps = l1 ++ a :: l2 ∧
        (∀ b ∈ l1, hasCompany b = true →
          appScore (senderDomain e.sender_email) (combinedText e) b
            < appScore (senderDomain e.sender_email) (combinedText e) a) ∧
        (∀ b ∈ apps, hasCompany b = true →
          appScore (senderDomain e.sender_email) (combinedText e) b
            ≤ appScore (senderDomain e.sender_email) (combinedText e) a)) ∧
    (auto_match_email_to_application tieEmail [acmeInc, acmeCorp]).1 = some acmeInc ∧
    (auto_match_email_to_application tieEmail [acmeCorp, acmeInc]).1 = some acmeCorp ∧
    appScore (senderDomain tieEmail.sender_email) (combinedText tieEmail) acmeInc = 60 ∧
    appScore (senderDomain tieEmail.sender_email) (combinedText tieEmail) acmeCorp = 60 := by
  refine ⟨?_, by decide, by decide, by decide, by decide⟩
  intro e apps a h
  unfold auto_match_email_to_application at h
  by_cases hg : e.sender_email = "" ∨ apps = []
  · simp [hg] at h
  · rw [if_neg hg] at h
    dsimp only at h
    rcases matchFold_spec (senderDomain e.sender_email) (combinedText e) apps none 0 with
      ⟨heq, _⟩ | ⟨l1, a', l2, hsplit, hca, heq, _, h1, h2⟩
    · rw [heq] at h
      simp at h
    · rw [heq] at h
      simp at h
      subst h
      refine ⟨l1, l2, hsplit, h1, ?_⟩
      intro b hb hcb
      rw [hsplit] at hb
      rcases List.mem_append.mp hb with hb1 | hb2
      · exact le_of_lt (h1 b hb1 hcb)
      · rcases List.mem_cons.mp hb2 with rfl | hb3
        · exact le_refl _
        · exact h2 b hb3 hcb

/-- Witness for C8: the tie scenario, with "Acme Inc" listed first and
returned. -/
theorem C8_tie_first_wins_witness :
    ∃ l1 l2, [acmeInc, acmeCorp] = l1 ++ acmeInc :: l2 ∧
      (∀ b ∈ l1, hasCompany b = true →
        appScore (senderDomain tieEmail.sender_email) (combinedText tieEmail) b
          < appScore (senderDomain tieEmail.sender_email) (combinedText tieEmail) acmeInc) ∧
      (∀ b ∈ [acmeInc, acmeCorp], hasCompany b = true →
        appScore (senderDomain tieEmail.sender_email) (combinedText tieEmail) b
          ≤ appScore (senderDomain tieEmail.sender_email) (combinedText tieEmail) acmeInc) :=
  (C8_tie_first_wins).1 tieEmail [acmeInc, acmeCorp] acmeInc (by decide)

/-- A concrete OAuth flow stub for the auth-URL theorems. -/
def authFlow : String → String := fun r => "https://auth.example/?redirect=" ++ r

/-- C9 counterexample: an unconfigured provider's `get_auth_url` does
not fail with a NotConfigured error — it returns normally, with the
empty string, for both adapter variants. -/
theorem C9_auth_url_counterexample :
    GmailProvider.is_configured ⟨"", "", false⟩ = false ∧
    GmailProvider.get_auth_url ⟨"", "", false⟩ "https://app/cb" authFlow = "" ∧
    OutlookProvider.is_configured ⟨"", "", false⟩ = false ∧
    OutlookProvider.get_auth_url ⟨"", "", false⟩ "https://app/cb" authFlow = "" :=
  ⟨rfl, rfl, rfl, rfl⟩

/-- C9 amended: for every unconfigured provider (either variant),
`get_auth_url` returns the empty-string sentinel, never a URL; callers
treat the empty string as the not-configured failure signal. -/
theorem C9_auth_url_sentinel (p : GmailProvider) (q : OutlookProvider)
    (r1 r2 : String) (f1 f2 : String → String)
    (hp : p.is_configured = false) (hq : q.is_configured = false) :
    p.get_auth_url r1 f1 = "" ∧ q.get_auth_url r2 f2 = "" := by
  constructor
  · simp [GmailProvider.get_auth_url, hp]
  · simp [OutlookProvider.get_auth_url, hq]

/-- Witness for C9: concrete partially-configured providers (missing
secret, missing id) both yield the sentinel. -/
theorem C9_auth_url_sentinel_witness :
    GmailProvider.get_auth_url ⟨"only-id", "", true⟩ "https://app/cb" authFlow = "" ∧
    OutlookProvider.get_auth_url ⟨"", "only-secret", true⟩ "https://app/cb" authFlow = "" :=
  C9_auth_url_sentinel ⟨"only-id", "", true⟩ ⟨"", "only-secret", true⟩
    "https://app/cb" "https://app/cb" authFlow authFlow (by decide) (by decide)

/-- C10: the Matcher never reports positive confidence without a match,
and every freshly stored record is auto-matched iff the match confidence
is ≥ 0.5, in which case its application link is non-null. -/
theorem C10_auto_matched_always_linked (cf : Email → Classification) (now today : Int)
    (apps : List Application) (acc : CycleState) (e : Email) :
    (0 < (auto_match_email_to_application e apps).2 →
      (auto_match_email_to_application e apps).1.isSome = true) ∧
    (alreadyTracked acc.1 e = false →
      ∃ r, (process_email cf now today apps acc e).1.email_tracking
          = acc.1.email_tracking ++ [r] ∧
        (r.auto_matched = true ↔ 50 ≤ (auto_match_email_to_application e apps).2) ∧
        (r.auto_matched = true → r.application_id.isSome = true)) := by
  obtain ⟨db, tr, st⟩ := acc
  refine ⟨auto_match_pos_isSome e apps, ?_⟩
  intro h
  refine ⟨_, process_email_tracking cf now today apps db tr st e h, ?_, ?_⟩
  · simp [trackingRecord]
  · intro hm
    simp only [trackingRecord] at hm ⊢
    simp at hm
    have hsome := auto_match_pos_isSome e apps (by omega)
    obtain ⟨a, ha⟩ := Option.isSome_iff_exists.mp hsome
    rw [ha]
    simp [hm]

/-- Witness for C10: the concrete 0.6-confidence scenario stores one
auto-matched record with a link. -/
theorem C10_auto_matched_always_linked_witness :
    ∃ r, (process_email rejectionOracle 500 100 [acmeApp]
        (scenarioDB, [], ⟨0, 0, 0, 0⟩) rejectionEmailPlain).1.email_tracking
        = scenarioDB.email_tracking ++ [r] ∧
      (r.auto_matched = true ↔
        50 ≤ (auto_match_email_to_application rejectionEmailPlain [acmeApp]).2) ∧
      (r.auto_matched = true → r.application_id.isSome = true) :=
  (C10_auto_matched_always_linked rejectionOracle 500 100 [acmeApp]
    (scenarioDB, [], ⟨0, 0, 0, 0⟩) rejectionEmailPlain).2 (by decide)
